import Mathlib

/-
Verification of the interval-aggregation logic of iotstream_lr_kafka.py
(a Spark-streaming script that folds per-interval Kafka messages into a
feature vector and runs a pre-trained classifier on it).

The shallow embedding below models, from the source:
  - Python str.split(',')                        -> splitOnComma
  - Python int(s) on a field                     -> parseInt (decimal integer literals
    with optional sign and surrounding whitespace; Python's underscore grouping
    is not modelled, no claim depends on it)
  - Python float(s) on a field                   -> parseFloat (decimal/scientific
    literals plus inf/infinity/nan, case-insensitive, optional sign and
    surrounding whitespace; values are carried as exact rationals)
  - the rdd.map/filter/map(...).collect() line   -> collectInput (an exception
    raised by int()/float() inside the mapper aborts the whole batch, modelled
    as Except.error .parseError)
  - numpy fancy indexing features[k] = v         -> setFeature via pyIndex
    (Python semantics: a negative index wraps by + len, an index outside
    [-len, len) raises IndexError, modelled as Except.error .indexError)
  - the run_model callback                       -> run_model (the per-interval
    lines are modelled after the offset_line[1] extraction; console output is
    modelled as a list of Output values; model.predict is an opaque parameter)
  - the foreachRDD driver loop with ssc.stop()   -> runStream
  - the final statistics line                    -> summary
-/

namespace IotKafka

/-- Sensor values as Python floats: a finite value carried as an exact rational,
or an infinity or nan accepted by Python's float() parser. -/
inductive PyFloat where
  | finite (q : Rat)
  | inf (neg : Bool)
  | nan
deriving DecidableEq

/-- Drop leading and trailing whitespace, as Python's int()/float() do. -/
def trimChars (cs : List Char) : List Char :=
  ((cs.dropWhile Char.isWhitespace).reverse.dropWhile Char.isWhitespace).reverse

/-- Strip one optional leading sign; returns (isNegative, rest). -/
def stripSign : List Char → Bool × List Char
  | '-' :: rest => (true, rest)
  | '+' :: rest => (false, rest)
  | cs => (false, cs)

/-- Value of a decimal digit character. -/
def digitVal (c : Char) : Nat := c.toNat - 48

/-- Value of a digit string, most significant first. -/
def digitsToNat (cs : List Char) : Nat :=
  cs.foldl (fun a c => a * 10 + digitVal c) 0

/-- All characters are decimal digits. -/
def allDigits (cs : List Char) : Bool := cs.all Char.isDigit

/-- Python int(s) on a text field: optional surrounding whitespace, optional
sign, then a nonempty run of decimal digits; anything else raises ValueError
(modelled as none). -/
def parseInt (cs : List Char) : Option Int :=
  let t := trimChars cs
  let sr := stripSign t
  if (!sr.2.isEmpty) && allDigits sr.2 then
    some (if sr.1 then -(digitsToNat sr.2 : Int) else (digitsToNat sr.2 : Int))
  else none

/-- Mantissa of a float literal, kept as an unreduced fraction (numerator,
denominator): digits with an optional single point, at least one digit
overall. -/
def parseMantissa (cs : List Char) : Option (Nat × Nat) :=
  if cs.contains '.' then
    let d1 := cs.takeWhile (fun c => c ≠ '.')
    let d2 := (cs.dropWhile (fun c => c ≠ '.')).drop 1
    if allDigits d1 && allDigits d2 && (!d2.contains '.') && ((!d1.isEmpty) || (!d2.isEmpty)) then
      some (digitsToNat d1 * Nat.pow 10 d2.length + digitsToNat d2, Nat.pow 10 d2.length)
    else none
  else if (!cs.isEmpty) && allDigits cs then some (digitsToNat cs, 1)
  else none

/-- The rational num/den with the given sign. -/
def signedRat (neg : Bool) (num den : Nat) : Rat :=
  if neg then mkRat (-(num : Int)) den else mkRat (num : Int) den

/-- Python float(s) on a text field: optional surrounding whitespace, optional
sign, then inf/infinity/nan (case-insensitive) or a decimal literal with an
optional exponent part; anything else raises ValueError (modelled as none). -/
def parseFloat (cs : List Char) : Option PyFloat :=
  let t := (trimChars cs).map Char.toLower
  let sr := stripSign t
  let neg := sr.1
  let body := sr.2
  if body = ['i', 'n', 'f'] ∨ body = ['i', 'n', 'f', 'i', 'n', 'i', 't', 'y'] then
    some (.inf neg)
  else if body = ['n', 'a', 'n'] then some .nan
  else
    let mant := body.takeWhile (fun c => c ≠ 'e')
    match body.dropWhile (fun c => c ≠ 'e') with
    | [] => (parseMantissa mant).map fun nd => .finite (signedRat neg nd.1 nd.2)
    | _ :: ecs =>
      let esr := stripSign ecs
      if (!esr.2.isEmpty) && allDigits esr.2 then
        (parseMantissa mant).map fun nd =>
          let e := digitsToNat esr.2
          if esr.1 then .finite (signedRat neg nd.1 (nd.2 * Nat.pow 10 e))
          else .finite (signedRat neg (nd.1 * Nat.pow 10 e) nd.2)
      else none

/-- Python line.split(',') over the characters of the line. -/
def splitOnComma : List Char → List (List Char)
  | [] => [[]]
  | c :: rest =>
    if c = ',' then [] :: splitOnComma rest
    else
      match splitOnComma rest with
      | f :: fs => (c :: f) :: fs
      | [] => [[c]]

/-- Outcome of the per-line stage of the rdd pipeline: filtered out by the
length-4 check, aborted by an int()/float() ValueError, or a (sensor id,
sensor value) pair. -/
inductive LineResult where
  | dropped
  | fatal
  | pair (id : Int) (v : PyFloat)
deriving DecidableEq

/-- Combine the int() and float() results of a length-4 line: a ValueError in
either is fatal for the batch. -/
def parseFields : Option Int → Option PyFloat → LineResult
  | some i, some v => .pair i v
  | some _, none => .fatal
  | none, _ => .fatal

/-- One line through split/filter/map of run_model's rdd pipeline:
line.split(',') must have exactly 4 fields, then int(fields[1]) and
float(fields[3]) are taken. -/
def parseLine (line : String) : LineResult :=
  let fields := splitOnComma line.toList
  if fields.length = 4 then
    parseFields (parseInt (fields.getD 1 [])) (parseFloat (fields.getD 3 []))
  else .dropped

/-- The two fatal failure modes of run_model's body. -/
inductive RunError where
  | parseError
  | indexError
deriving DecidableEq

instance {ε α : Type} [DecidableEq ε] [DecidableEq α] : DecidableEq (Except ε α) := fun x y =>
  match x, y with
  | .error a, .error b =>
    if h : a = b then .isTrue (by rw [h])
    else .isFalse (fun hc => h (Except.error.injEq a b ▸ hc))
  | .ok a, .ok b =>
    if h : a = b then .isTrue (by rw [h])
    else .isFalse (fun hc => h (Except.ok.injEq a b ▸ hc))
  | .error a, .ok b => .isFalse (fun hc => Except.noConfusion hc)
  | .ok a, .error b => .isFalse (fun hc => Except.noConfusion hc)

/-- The collect() of the rdd pipeline: dropped lines vanish, the first
ValueError aborts the whole batch, otherwise the list of pairs in line order. -/
def collectInput : List String → Except RunError (List (Int × PyFloat))
  | [] => .ok []
  | l :: ls =>
    match parseLine l with
    | .dropped => collectInput ls
    | .fatal => .error .parseError
    | .pair i v =>
      match collectInput ls with
      | .ok rest => .ok ((i, v) :: rest)
      | .error e => .error e

/-- Python list/ndarray indexing: an index in [0, n) is itself, an index in
[-n, 0) wraps by + n, anything else raises IndexError. -/
def pyIndex (n : Nat) (i : Int) : Option Nat :=
  if 0 ≤ i ∧ i < (n : Int) then some i.toNat
  else if -(n : Int) ≤ i ∧ i < 0 then some (i + n).toNat
  else none

/-- The assignment features[i] = v with Python index semantics. -/
def setFeature (fs : List PyFloat) (i : Int) (v : PyFloat) :
    Except RunError (List PyFloat) :=
  match pyIndex fs.length i with
  | some j => .ok (fs.set j v)
  | none => .error .indexError

/-- The for-loop of run_model: for each pair, record last_batch if the id is
negative, then features[id - 1] = value. -/
def applyInput (fs : List PyFloat) (stop : Bool) :
    List (Int × PyFloat) → Except RunError (List PyFloat × Bool)
  | [] => .ok (fs, stop)
  | t :: rest =>
    match setFeature fs (t.1 - 1) t.2 with
    | .ok fs' => applyInput fs' (stop || decide (t.1 < 0)) rest
    | .error e => .error e

/-- The script's process-wide mutable state: the feature vector and the three
Spark accumulators. -/
structure State where
  features : List PyFloat
  interval : Nat
  empty_intervals : Nat
  events : Nat
deriving DecidableEq

/-- Initial state: np.zeros(n_sensors) then fill(0.5), counters at 0. -/
def initState (n_sensors : Nat) : State :=
  { features := List.replicate n_sensors (.finite (mkRat 1 2))
    interval := 0
    empty_intervals := 0
    events := 0 }

/-- Console output of one run_model invocation. -/
inductive Output where
  | noInput
  | attention (interval events_in_interval : Nat)
  | allClear (interval events_in_interval : Nat)
deriving DecidableEq

/-- The run_model callback on one batch of lines (after the offset_line[1]
extraction), with model.predict passed in as an opaque function. Returns the
new state, the last_batch flag that triggers ssc.stop(), and the console
output; a ValueError in the pipeline or an IndexError in the loop is fatal. -/
def run_model (predict : List PyFloat → Bool) (st : State) (lines : List String) :
    Except RunError (State × Bool × List Output) :=
  if lines.length = 0 then
    .ok ({ st with empty_intervals := st.empty_intervals + 1 }, false, [.noInput])
  else
    match collectInput lines with
    | .error e => .error e
    | .ok input =>
      match applyInput st.features false input with
      | .error e => .error e
      | .ok (fs, last_batch) =>
        let st' := { st with
          features := fs
          interval := st.interval + 1
          events := st.events + input.length }
        let out := if predict fs then Output.attention st'.interval input.length
                   else Output.allClear st'.interval input.length
        .ok (st', last_batch, [out])

/-- The foreachRDD driver: run_model on each batch in order, stopping the
stream after a batch whose processing set last_batch. -/
def runStream (predict : List PyFloat → Bool) :
    State → List (List String) → Except RunError State
  | st, [] => .ok st
  | st, b :: bs =>
    match run_model predict st b with
    | .error e => .error e
    | .ok (st', stop, _) => if stop then .ok st' else runStream predict st' bs

/-- Payload of the final statistics line. -/
structure Summary where
  events_printed : Int
  elapsed : Rat
  intervals : Nat
  rate : Rat
deriving DecidableEq

/-- The shutdown accounting and final print: elapsed = finish - start -
empty_intervals * reporting_interval - 1.5, and the line prints
events.value - 1, elapsed, interval.value and (events.value - 1) / elapsed. -/
def summary (st : State) (start_time finish_time reporting_interval : Rat) : Summary :=
  let elapsed := finish_time - start_time
    - (st.empty_intervals : Rat) * reporting_interval - 3 / 2
  { events_printed := (st.events : Int) - 1
    elapsed := elapsed
    intervals := st.interval
    rate := ((st.events : Rat) - 1) / elapsed }

/-- Spec-side helper: the value of the last pair in the list carrying the
given sensor id, if any. -/
def lastValue : List (Int × PyFloat) → Int → Option PyFloat
  | [], _ => none
  | t :: rest, id =>
    match lastValue rest id with
    | some w => some w
    | none => if t.1 = id then some t.2 else none

/-- Spec-side helper: the value of the last pair in the list whose write,
under Python indexing into a length-n vector, lands on position j. -/
def lastWrite (n : Nat) : List (Int × PyFloat) → Nat → Option PyFloat
  | [], _ => none
  | t :: rest, j =>
    match lastWrite n rest j with
    | some w => some w
    | none => if pyIndex n (t.1 - 1) = some j then some t.2 else none

/-- A line passes the rdd pipeline's length-4 filter. -/
def wellFieldCount (l : String) : Bool :=
  (splitOnComma l.toList).length == 4

/-- Number of lines of a batch that pass the length-4 filter. -/
def count4 (lines : List String) : Nat :=
  (lines.filter wellFieldCount).length

/-- getD after set: position i is overwritten when in range, others unchanged. -/
theorem set_getD {α : Type} (l : List α) (i j : Nat) (a d : α) :
    (l.set i a).getD j d = if i = j ∧ i < l.length then a else l.getD j d := by
  induction l generalizing i j with
  | nil => simp
  | cons x xs ih =>
    cases i with
    | zero =>
      cases j with
      | zero => simp
      | succ j => simp [List.set]
    | succ i =>
      cases j with
      | zero => simp [List.set]
      | succ j =>
        simp only [List.set, List.getD_cons_succ, List.length_cons, ih i j]
        by_cases h1 : i = j <;> by_cases h2 : i < xs.length <;>
          simp [h1, h2, Nat.succ_lt_succ_iff]

/-- A successful Python index is in range. -/
theorem pyIndex_lt {n : Nat} {i : Int} {j : Nat} (h : pyIndex n i = some j) : j < n := by
  unfold pyIndex at h
  split at h
  · next h1 =>
    injection h with h2
    omega
  · split at h
    · next h2 =>
      injection h with h3
      omega
    · exact absurd h (by simp)

/-- A successful features[i] = v is a set at the wrapped index. -/
theorem setFeature_ok {fs : List PyFloat} {i : Int} {v : PyFloat} {fs1 : List PyFloat}
    (h : setFeature fs i v = .ok fs1) :
    ∃ j, pyIndex fs.length i = some j ∧ j < fs.length ∧ fs1 = fs.set j v := by
  unfold setFeature at h
  cases hp : pyIndex fs.length i with
  | none => rw [hp] at h; exact absurd h (by simp)
  | some j =>
    rw [hp] at h
    injection h with h2
    exact ⟨j, rfl, pyIndex_lt hp, h2.symm⟩

/-- Characterization of a successful pass of run_model's for-loop: the stop
flag records whether some id was negative, the vector keeps its length, and
each position holds the last value written onto it (or its old value). -/
theorem applyInput_ok_spec (input : List (Int × PyFloat)) :
    ∀ (fs : List PyFloat) (stop : Bool) (fs' : List PyFloat) (stop' : Bool),
      applyInput fs stop input = .ok (fs', stop') →
      stop' = (stop || input.any (fun t => decide (t.1 < 0)))
      ∧ fs'.length = fs.length
      ∧ ∀ j d, fs'.getD j d = (lastWrite fs.length input j).getD (fs.getD j d) := by
  induction input with
  | nil =>
    intro fs stop fs' stop' h
    unfold applyInput at h
    injection h with h1
    rw [show fs' = fs from (congrArg Prod.fst h1).symm,
      show stop' = stop from (congrArg Prod.snd h1).symm]
    simp [lastWrite]
  | cons t rest ih =>
    intro fs stop fs' stop' h
    unfold applyInput at h
    split at h
    · next fs1 hset =>
      obtain ⟨j0, hj0, hjlt, rfl⟩ := setFeature_ok hset
      obtain ⟨h1, h2, h3⟩ := ih _ _ _ _ h
      refine ⟨?_, ?_, ?_⟩
      · simp only [h1, List.any_cons, Bool.or_assoc]
      · rw [h2, List.length_set]
      · intro j d
        have h3' := h3 j d
        rw [List.length_set] at h3'
        unfold lastWrite
        cases hlw : lastWrite fs.length rest j with
        | some w => rw [hlw] at h3'; simpa using h3'
        | none =>
          rw [hlw] at h3'
          simp only [Option.getD_none] at h3'
          rw [h3', set_getD, hj0]
          by_cases hjj : j0 = j
          · subst hjj; simp [hjlt]
          · simp [hjj]
    · next e hset => exact absurd h (by simp)

/-- If every write of the input lands in range, the for-loop succeeds. -/
theorem applyInput_isSome_ok (input : List (Int × PyFloat)) :
    ∀ (fs : List PyFloat) (stop : Bool),
      (∀ t ∈ input, (pyIndex fs.length (t.1 - 1)).isSome) →
      ∃ fs' stop', applyInput fs stop input = .ok (fs', stop') := by
  induction input with
  | nil => intro fs stop _; exact ⟨fs, stop, rfl⟩
  | cons t rest ih =>
    intro fs stop hall
    have ht := hall t (List.mem_cons_self t rest)
    cases hj : pyIndex fs.length (t.1 - 1) with
    | none => rw [hj] at ht; exact absurd ht (by simp)
    | some j =>
      have hrest : ∀ u ∈ rest, (pyIndex (fs.set j t.2).length (u.1 - 1)).isSome := by
        intro u hu
        rw [List.length_set]
        exact hall u (List.mem_cons_of_mem t hu)
      obtain ⟨fs', stop', hrec⟩ := ih (fs.set j t.2) (stop || decide (t.1 < 0)) hrest
      refine ⟨fs', stop', ?_⟩
      unfold applyInput
      rw [show setFeature fs (t.1 - 1) t.2 = .ok (fs.set j t.2) by unfold setFeature; rw [hj]]
      exact hrec

/-- If some write of the input is out of range, the for-loop raises IndexError. -/
theorem applyInput_oob (input : List (Int × PyFloat)) :
    ∀ (fs : List PyFloat) (stop : Bool),
      (∃ t ∈ input, pyIndex fs.length (t.1 - 1) = none) →
      applyInput fs stop input = .error .indexError := by
  induction input with
  | nil => intro fs stop h; exact absurd h (by simp)
  | cons t rest ih =>
    intro fs stop h
    cases hj : pyIndex fs.length (t.1 - 1) with
    | none =>
      unfold applyInput
      rw [show setFeature fs (t.1 - 1) t.2 = .error .indexError by unfold setFeature; rw [hj]]
    | some j =>
      obtain ⟨u, hu, hnone⟩ := h
      rcases List.mem_cons.mp hu with rfl | hu'
      · exact absurd hnone (by simp [hj])
      · unfold applyInput
        rw [show setFeature fs (t.1 - 1) t.2 = .ok (fs.set j t.2) by unfold setFeature; rw [hj]]
        exact ih (fs.set j t.2) (stop || decide (t.1 < 0))
          ⟨u, hu', by rw [List.length_set]; exact hnone⟩

/-- parseFields never yields dropped. -/
theorem parseFields_ne_dropped (oi : Option Int) (ov : Option PyFloat) :
    parseFields oi ov ≠ .dropped := by
  cases oi <;> cases ov <;> simp [parseFields]

/-- A line is dropped by the pipeline iff its comma-split field count is not 4. -/
theorem parseLine_dropped_iff (l : String) :
    parseLine l = .dropped ↔ wellFieldCount l = false := by
  unfold parseLine wellFieldCount
  by_cases h : (splitOnComma l.toList).length = 4
  · simp [h, parseFields_ne_dropped]
  · simp only [h]
    simp [h]
    exact h

/-- A line that is not dropped passes the length-4 filter. -/
theorem wellFieldCount_of_not_dropped {l : String} (h : parseLine l ≠ .dropped) :
    wellFieldCount l = true := by
  cases hwc : wellFieldCount l with
  | false => exact absurd ((parseLine_dropped_iff l).mpr hwc) h
  | true => rfl

/-- Every collected pair comes from some line of the batch. -/
theorem collectInput_mem :
    ∀ (lines : List String) (input : List (Int × PyFloat)),
      collectInput lines = .ok input →
      ∀ t ∈ input, ∃ l ∈ lines, parseLine l = .pair t.1 t.2 := by
  intro lines
  induction lines with
  | nil =>
    intro input h t ht
    injection h with h1
    subst h1
    simp at ht
  | cons l ls ih =>
    intro input h t ht
    unfold collectInput at h
    split at h
    · next hl =>
      obtain ⟨l', hl', hpl⟩ := ih input h t ht
      exact ⟨l', List.mem_cons_of_mem l hl', hpl⟩
    · next hl => exact absurd h (by simp)
    · next i v hl =>
      split at h
      · next rest hrest =>
        injection h with h1
        subst h1
        rcases List.mem_cons.mp ht with rfl | ht'
        · exact ⟨l, List.mem_cons_self l ls, hl⟩
        · obtain ⟨l', hl', hpl⟩ := ih rest hrest t ht'
          exact ⟨l', List.mem_cons_of_mem l hl', hpl⟩
      · next e he => exact absurd h (by simp)

/-- The pipeline fails exactly when some line of the batch is fatal, and then
with the ValueError. -/
theorem collectInput_error_iff (lines : List String) :
    ∀ e, collectInput lines = .error e ↔
      (e = .parseError ∧ ∃ l ∈ lines, parseLine l = .fatal) := by
  induction lines with
  | nil => intro e; unfold collectInput; simp
  | cons l ls ih =>
    intro e
    unfold collectInput
    split
    · next hl =>
      rw [ih e]
      simp only [List.mem_cons]
      constructor
      · rintro ⟨rfl, l', hl', hf⟩; exact ⟨rfl, l', Or.inr hl', hf⟩
      · rintro ⟨rfl, l', hl', hf⟩
        rcases hl' with rfl | hl''
        · rw [hl] at hf; exact absurd hf (by simp)
        · exact ⟨rfl, l', hl'', hf⟩
    · next hl =>
      constructor
      · intro h
        injection h with h1
        exact ⟨h1.symm, l, List.mem_cons_self l ls, hl⟩
      · rintro ⟨rfl, _⟩; rfl
    · next i v hl =>
      split
      · next rest hrest =>
        constructor
        · intro h; exact absurd h (by simp)
        · rintro ⟨rfl, l', hl', hf⟩
          rcases List.mem_cons.mp hl' with rfl | hl''
          · rw [hl] at hf; exact absurd hf (by simp)
          · have := (ih RunError.parseError).mpr ⟨rfl, l', hl'', hf⟩
            rw [this] at hrest
            exact absurd hrest (by simp)
      · next e' he' =>
        have h' := (ih e').mp he'
        constructor
        · intro h
          injection h with h1
          subst h1
          obtain ⟨rfl, l', hl', hf⟩ := h'
          exact ⟨rfl, l', List.mem_cons_of_mem l hl', hf⟩
        · rintro ⟨rfl, _⟩
          rw [h'.1]


/-- The number of collected pairs is the number of length-4 lines. -/
theorem collectInput_length :
    ∀ (lines : List String) (input : List (Int × PyFloat)),
      collectInput lines = .ok input → input.length = count4 lines := by
  intro lines
  induction lines with
  | nil =>
    intro input h
    injection h with h1
    subst h1
    rfl
  | cons l ls ih =>
    intro input h
    unfold collectInput at h
    split at h
    · next hl =>
      have hw : wellFieldCount l = false := (parseLine_dropped_iff l).mp hl
      rw [ih input h]
      unfold count4
      simp [List.filter_cons, hw]
    · next hl => exact absurd h (by simp)
    · next i v hl =>
      split at h
      · next rest hrest =>
        injection h with h1
        subst h1
        have hw : wellFieldCount l = true :=
          wellFieldCount_of_not_dropped (by rw [hl]; simp)
        rw [List.length_cons, ih rest hrest]
        unfold count4
        simp [List.filter_cons, hw]
      · next e he => exact absurd h (by simp)

/-- collectInput of a permuted batch is a permutation of collectInput. -/
theorem collectInput_perm {lines lines' : List String} (hp : lines.Perm lines') :
    ∀ input, collectInput lines = .ok input →
      ∃ input', collectInput lines' = .ok input' ∧ input.Perm input' := by
  induction hp with
  | nil => intro input h; exact ⟨input, h, List.Perm.refl _⟩
  | cons x hp ih =>
    rename_i l₁ l₂
    intro input h
    cases hx : parseLine x with
    | dropped =>
      simp only [collectInput, hx] at h ⊢
      exact ih input h
    | fatal =>
      have h' : Except.error RunError.parseError = Except.ok input := by
        simpa only [collectInput, hx] using h
      exact absurd h' (by simp)
    | pair i v =>
      cases hcl1 : collectInput l₁ with
      | error e =>
        have h' : Except.error e = Except.ok input := by
          simpa only [collectInput, hx, hcl1] using h
        exact absurd h' (by simp)
      | ok rest =>
        have h' : (Except.ok ((i, v) :: rest) : Except RunError (List (Int × PyFloat))) = Except.ok input := by
          simpa only [collectInput, hx, hcl1] using h
        injection h' with h1
        subst h1
        obtain ⟨rest', hrest', hpr⟩ := ih rest hcl1
        refine ⟨(i, v) :: rest', ?_, List.Perm.cons _ hpr⟩
        simp only [collectInput, hx, hrest']
  | swap x y l =>
    intro input h
    cases hy : parseLine y with
    | fatal =>
      have h' : Except.error RunError.parseError = Except.ok input := by
        simpa only [collectInput, hy] using h
      exact absurd h' (by simp)
    | dropped =>
      cases hx : parseLine x with
      | dropped =>
        have h' : collectInput l = Except.ok input := by
          simpa only [collectInput, hy, hx] using h
        refine ⟨input, ?_, List.Perm.refl _⟩
        simp only [collectInput, hx, hy]
        exact h'
      | fatal =>
        have h' : Except.error RunError.parseError = Except.ok input := by
          simpa only [collectInput, hy, hx] using h
        exact absurd h' (by simp)
      | pair i v =>
        refine ⟨input, ?_, List.Perm.refl _⟩
        have h' := h
        simp only [collectInput, hy, hx] at h' ⊢
        exact h'
    | pair iy vy =>
      cases hx : parseLine x with
      | dropped =>
        refine ⟨input, ?_, List.Perm.refl _⟩
        have h' := h
        simp only [collectInput, hy, hx] at h' ⊢
        exact h'
      | fatal =>
        have h' : Except.error RunError.parseError = Except.ok input := by
          simpa only [collectInput, hy, hx] using h
        exact absurd h' (by simp)
      | pair ix vx =>
        cases hcl : collectInput l with
        | error e =>
          have h' : Except.error e = Except.ok input := by
            simpa only [collectInput, hy, hx, hcl] using h
          exact absurd h' (by simp)
        | ok rest =>
          have h' : (Except.ok ((iy, vy) :: (ix, vx) :: rest) :
              Except RunError (List (Int × PyFloat))) = Except.ok input := by
            simpa only [collectInput, hy, hx, hcl] using h
          injection h' with h1
          subst h1
          refine ⟨(ix, vx) :: (iy, vy) :: rest, ?_, List.Perm.swap _ _ _⟩
          simp only [collectInput, hx, hy, hcl]
  | trans hp1 hp2 ih1 ih2 =>
    intro input h
    obtain ⟨input1, h1, hper1⟩ := ih1 input h
    obtain ⟨input2, h2, hper2⟩ := ih2 input1 h1
    exact ⟨input2, h2, hper1.trans hper2⟩

/-- If nothing in the input writes position j, there is no last write. -/
theorem lastWrite_none {n : Nat} {input : List (Int × PyFloat)} {j : Nat}
    (h : ∀ t ∈ input, pyIndex n (t.1 - 1) ≠ some j) :
    lastWrite n input j = none := by
  induction input with
  | nil => rfl
  | cons t rest ih =>
    unfold lastWrite
    rw [ih (fun u hu => h u (List.mem_cons_of_mem t hu))]
    simp [h t (List.mem_cons_self t rest)]

/-- With one-based in-range ids, the last write onto position j is the last
value reported for sensor j + 1. -/
theorem lastWrite_eq_lastValue {n : Nat} {input : List (Int × PyFloat)}
    (h : ∀ t ∈ input, 1 ≤ t.1 ∧ t.1 ≤ (n : Int)) (j : Nat) :
    lastWrite n input j = lastValue input ((j : Int) + 1) := by
  induction input with
  | nil => rfl
  | cons t rest ih =>
    unfold lastWrite lastValue
    rw [ih (fun u hu => h u (List.mem_cons_of_mem t hu))]
    cases hlv : lastValue rest ((j : Int) + 1) with
    | some w => rfl
    | none =>
      obtain ⟨h1, h2⟩ := h t (List.mem_cons_self t rest)
      have hiff : (pyIndex n (t.1 - 1) = some j) ↔ (t.1 = (j : Int) + 1) := by
        unfold pyIndex
        rw [if_pos (⟨by omega, by omega⟩ : 0 ≤ t.1 - 1 ∧ t.1 - 1 < (n : Int))]
        constructor
        · intro hh
          injection hh with hh1
          omega
        · intro hh
          have hnt : (t.1 - 1).toNat = j := by omega
          rw [hnt]
      by_cases hc : t.1 = (j : Int) + 1
      · rw [if_pos (hiff.mpr hc), if_pos hc]
      · rw [if_neg (fun hcc => hc (hiff.mp hcc)), if_neg hc]

/-- When the writes of a batch land on pairwise distinct positions, the last
write onto any position is permutation invariant. -/
theorem lastWrite_perm {n : Nat} {input input' : List (Int × PyFloat)}
    (hp : input.Perm input') :
    (input.map (fun t => pyIndex n (t.1 - 1))).Nodup →
    ∀ j, lastWrite n input j = lastWrite n input' j := by
  induction hp with
  | nil => intro _ j; rfl
  | cons x hp ih =>
    intro hnd j
    rw [List.map_cons, List.nodup_cons] at hnd
    unfold lastWrite
    rw [ih hnd.2 j]
  | swap x y l =>
    intro hnd j
    rw [List.map_cons, List.map_cons, List.nodup_cons, List.nodup_cons] at hnd
    simp only [lastWrite]
    cases hlw : lastWrite n l j with
    | some w => rfl
    | none =>
      by_cases hcx : pyIndex n (x.1 - 1) = some j
      · by_cases hcy : pyIndex n (y.1 - 1) = some j
        · exfalso
          apply hnd.1
          rw [hcy, hcx]
          exact List.mem_cons_self _ _
        · simp [hcx, hcy]
      · by_cases hcy : pyIndex n (y.1 - 1) = some j
        · simp [hcx, hcy]
        · simp [hcx, hcy]
  | trans hp1 hp2 ih1 ih2 =>
    intro hnd j
    rw [ih1 hnd j, ih2 ((hp1.map _).nodup_iff.mp hnd) j]

/-- Lists agreeing in length and at every getD position are equal. -/
theorem list_ext_getD {α : Type} (d : α) :
    ∀ (l1 l2 : List α), l1.length = l2.length →
      (∀ j, l1.getD j d = l2.getD j d) → l1 = l2 := by
  intro l1
  induction l1 with
  | nil =>
    intro l2 hlen _
    cases l2 with
    | nil => rfl
    | cons y ys => simp at hlen
  | cons x xs ih =>
    intro l2 hlen hgd
    cases l2 with
    | nil => simp at hlen
    | cons y ys =>
      have h0 := hgd 0
      simp only [List.getD_cons_zero] at h0
      rw [h0, ih ys (by simpa using hlen) (fun j => by simpa using hgd (j + 1))]

/-- getD on a replicated list. -/
theorem replicate_getD {α : Type} (n : Nat) (x d : α) (j : Nat) :
    (List.replicate n x).getD j d = if j < n then x else d := by
  induction n generalizing j with
  | zero => simp
  | succ n ih =>
    cases j with
    | zero => simp [List.replicate]
    | succ j =>
      simp only [List.replicate, List.getD_cons_succ]
      rw [ih j]
      simp [Nat.succ_lt_succ_iff]

/-- Boolean any is permutation invariant. -/
theorem perm_any_eq {α : Type} {l1 l2 : List α} (h : l1.Perm l2) (f : α → Bool) :
    l1.any f = l2.any f := by
  apply Bool.eq_iff_iff.mpr
  simp only [List.any_eq_true]
  constructor
  · rintro ⟨a, ha, hf⟩
    exact ⟨a, h.subset ha, hf⟩
  · rintro ⟨a, ha, hf⟩
    exact ⟨a, h.symm.subset ha, hf⟩

/-- run_model on an empty batch: only the empty-interval counter moves, the
output is the No-input line, and the classifier is never consulted. -/
theorem run_model_nil (predict : List PyFloat → Bool) (st : State) :
    run_model predict st [] =
      .ok ({ st with empty_intervals := st.empty_intervals + 1 }, false, [.noInput]) := rfl

/-- run_model on a nonempty batch, given the collected input and a successful
pass of the for-loop. -/
theorem run_model_ok_nonempty {predict : List PyFloat → Bool} {st : State}
    {lines : List String} {input : List (Int × PyFloat)}
    {fs : List PyFloat} {stop : Bool}
    (hne : lines ≠ [])
    (hci : collectInput lines = .ok input)
    (hai : applyInput st.features false input = .ok (fs, stop)) :
    run_model predict st lines =
      .ok ({ features := fs
             interval := st.interval + 1
             empty_intervals := st.empty_intervals
             events := st.events + input.length }, stop,
           [if predict fs then Output.attention (st.interval + 1) input.length
            else Output.allClear (st.interval + 1) input.length]) := by
  unfold run_model
  rw [if_neg (fun h => hne (List.length_eq_zero.mp h))]
  simp only [hci, hai]

/-- Inversion of a successful run_model call on a nonempty batch. -/
theorem run_model_ok_inv {predict : List PyFloat → Bool} {st : State}
    {lines : List String} {st' : State} {stop : Bool} {outs : List Output}
    (hne : lines ≠ [])
    (h : run_model predict st lines = .ok (st', stop, outs)) :
    ∃ input fs, collectInput lines = .ok input
      ∧ applyInput st.features false input = .ok (fs, stop)
      ∧ st' = { features := fs
                interval := st.interval + 1
                empty_intervals := st.empty_intervals
                events := st.events + input.length }
      ∧ outs = [if predict fs then Output.attention (st.interval + 1) input.length
                else Output.allClear (st.interval + 1) input.length] := by
  unfold run_model at h
  rw [if_neg (fun hh => hne (List.length_eq_zero.mp hh))] at h
  cases hci : collectInput lines with
  | error e =>
    rw [hci] at h
    exact absurd (show (Except.error e : Except RunError (State × Bool × List Output))
      = .ok (st', stop, outs) from h) (by simp)
  | ok input =>
    rw [hci] at h
    cases hai : applyInput st.features false input with
    | error e =>
      simp only [hai] at h
      exact absurd h (by simp)
    | ok p =>
      obtain ⟨fs, stop2⟩ := p
      simp only [hai] at h
      injection h with h1
      have h2 := congrArg Prod.fst h1
      have h34 := congrArg Prod.snd h1
      have h3 := congrArg Prod.fst h34
      have h4 := congrArg Prod.snd h34
      simp only at h2 h3 h4
      exact ⟨input, fs, rfl, h3 ▸ hai, h2.symm, h4.symm⟩

/-- A successful interval never shrinks or grows the vector and leaves every
position alone that none of its parsed messages writes. -/
theorem run_model_preserves {predict : List PyFloat → Bool} {st : State}
    {lines : List String} {st' : State} {stop : Bool} {outs : List Output}
    {i : Nat} {d : PyFloat}
    (h : run_model predict st lines = .ok (st', stop, outs))
    (hno : ∀ l ∈ lines, ∀ id v, parseLine l = .pair id v →
      pyIndex st.features.length (id - 1) ≠ some i) :
    st'.features.length = st.features.length
    ∧ st'.features.getD i d = st.features.getD i d := by
  by_cases hne : lines = []
  · subst hne
    rw [run_model_nil] at h
    injection h with h1
    have h2 := congrArg Prod.fst h1
    simp only at h2
    rw [← h2]
    exact ⟨rfl, rfl⟩
  · obtain ⟨input, fs, hci, hai, hst, _⟩ := run_model_ok_inv hne h
    obtain ⟨_, hlen, hgd⟩ := applyInput_ok_spec input st.features false fs stop hai
    have hlw : lastWrite st.features.length input i = none := by
      apply lastWrite_none
      intro t ht
      obtain ⟨l, hl, hpl⟩ := collectInput_mem lines input hci t ht
      exact hno l hl t.1 t.2 hpl
    subst hst
    refine ⟨hlen, ?_⟩
    rw [hgd i d, hlw]
    rfl

/-- Along a successfully processed batch sequence, a position that no parsed
message ever writes keeps its value, and the vector keeps its length. -/
theorem runStream_keep {predict : List PyFloat → Bool} {i : Nat} {d : PyFloat} :
    ∀ (batches : List (List String)) (st st' : State),
      runStream predict st batches = .ok st' →
      (∀ b ∈ batches, ∀ l ∈ b, ∀ id v, parseLine l = .pair id v →
        pyIndex st.features.length (id - 1) ≠ some i) →
      st'.features.length = st.features.length
      ∧ st'.features.getD i d = st.features.getD i d := by
  intro batches
  induction batches with
  | nil =>
    intro st st' h _
    injection h with h1
    subst h1
    exact ⟨rfl, rfl⟩
  | cons b bs ih =>
    intro st st' h hno
    unfold runStream at h
    cases hrm : run_model predict st b with
    | error e =>
      rw [hrm] at h
      exact absurd h (by simp)
    | ok p =>
      obtain ⟨st1, stop, outs⟩ := p
      simp only [hrm] at h
      have hb := @run_model_preserves predict st b st1 stop outs i d hrm
        (hno b (List.mem_cons_self b bs))
      cases stop with
      | true =>
        rw [if_pos rfl] at h
        injection h with h1
        subst h1
        exact hb
      | false =>
        rw [if_neg (by simp)] at h
        have hstep := ih st1 st' h (fun b' hb' l hl id v hp => by
          rw [hb.1]
          exact hno b' (List.mem_cons_of_mem b hb') l hl id v hp)
        exact ⟨hstep.1.trans hb.1, hstep.2.trans hb.2⟩

/-- One unfolding step of collectInput on a cons cell. -/
theorem collectInput_cons (l : String) (ls : List String) :
    collectInput (l :: ls) =
      match parseLine l with
      | .dropped => collectInput ls
      | .fatal => .error .parseError
      | .pair i v =>
        match collectInput ls with
        | .ok rest => .ok ((i, v) :: rest)
        | .error e => .error e := rfl

/-- Dropping a malformed (field count ≠ 4) line from a batch that stays
nonempty does not change the result of run_model. -/
theorem run_model_cons_dropped {predict : List PyFloat → Bool} {st : State}
    {l : String} {ls : List String}
    (hdrop : parseLine l = .dropped) (hne : ls ≠ []) :
    run_model predict st (l :: ls) = run_model predict st ls := by
  unfold run_model
  rw [if_neg (by simp), if_neg (fun h => hne (List.length_eq_zero.mp h))]
  rw [show collectInput (l :: ls) = collectInput ls by
    rw [collectInput_cons, hdrop]]

/-! Concrete message lines used in the witnesses and counterexamples. -/

/-- A well-formed line reporting sensor 1 with value 0.9. -/
def lA : String := "t,1,n,0.9"

/-- A well-formed line reporting sensor 2 with value 0.1. -/
def lB : String := "t,2,n,0.1"

/-- The end-of-stream sentinel line with sensor id -1. -/
def lNeg : String := "t,-1,n,0.0"

/-- A 4-field line whose sensor-id field is not an integer literal. -/
def lBadInt : String := "t,x,n,0.5"

/-- Another 4-field line whose sensor-id field is not an integer literal. -/
def lBadAbc : String := "t,abc,n,0.5"

/-- A line whose comma-split field count is 1, not 4. -/
def lGarbage : String := "garbage"

/-- A well-formed line reporting sensor 1 with value 1. -/
def lDup1 : String := "t,1,n,1"

/-- A second well-formed line reporting sensor 1, with value 2. -/
def lDup2 : String := "t,1,n,2"

/-- A well-formed line whose sensor id 17 is out of range for 3 sensors. -/
def lBig : String := "t,17,n,0.5"

/-- C8: an interval whose batch contains zero lines leaves the feature vector
unchanged, increments only the empty-interval counter (interval and message
counters stay), emits the "No input" line, and never consults the prediction
function: the result does not depend on predict at all. -/
theorem C8_empty_interval (predict predict' : List PyFloat → Bool) (st : State) :
    run_model predict st [] =
      .ok ({ st with empty_intervals := st.empty_intervals + 1 }, false, [.noInput])
    ∧ run_model predict st [] = run_model predict' st [] :=
  ⟨rfl, rfl⟩

/-- C10: with a single configured sensor, a batch whose parsed input contains
the end-of-stream sentinel id -1 (which addresses index -2 of the length-1
feature vector) makes run_model abort with an IndexError, so the run fails
instead of terminating normally after the interval. -/
theorem C10_sentinel_index_error {predict : List PyFloat → Bool} {st : State}
    {lines : List String} {input : List (Int × PyFloat)} {v : PyFloat}
    (hn : st.features.length = 1)
    (hci : collectInput lines = .ok input)
    (hmem : ((-1 : Int), v) ∈ input) :
    run_model predict st lines = .error .indexError := by
  have hne : lines ≠ [] := by
    intro hl
    subst hl
    injection hci with h1
    subst h1
    exact absurd hmem (by simp)
  unfold run_model
  rw [if_neg (fun h => hne (List.length_eq_zero.mp h)), hci]
  have hoob : ∃ t ∈ input, pyIndex st.features.length (t.1 - 1) = none := by
    refine ⟨((-1 : Int), v), hmem, ?_⟩
    rw [hn]
    rfl
  simp only [applyInput_oob input st.features false hoob]

/-- C10 witness: one sensor, the sentinel batch aborts with the IndexError. -/
theorem C10_sentinel_index_error_witness :
    run_model (fun _ => false) (initState 1) [lNeg] = .error .indexError :=
  @C10_sentinel_index_error (fun _ => false) (initState 1) [lNeg]
    [((-1 : Int), PyFloat.finite 0)] (PyFloat.finite 0) (by decide) (by decide) (by decide)

/-- C1: for a non-empty batch all of whose lines are well-formed (4 fields,
integer id in [1, n], float value), run_model succeeds and the new feature
vector holds, at each position j, the value of the last message reporting
sensor j + 1, while every position no message reports keeps its old value;
the vector length never changes. -/
theorem C1_frame_effect {predict : List PyFloat → Bool} {st : State}
    {lines : List String} {input : List (Int × PyFloat)}
    (hne : lines ≠ [])
    (hci : collectInput lines = .ok input)
    (_hall : input.length = lines.length)
    (hid : ∀ t ∈ input, 1 ≤ t.1 ∧ t.1 ≤ (st.features.length : Int)) :
    ∃ st' stop outs, run_model predict st lines = .ok (st', stop, outs)
      ∧ st'.features.length = st.features.length
      ∧ ∀ j d, st'.features.getD j d =
          (lastValue input ((j : Int) + 1)).getD (st.features.getD j d) := by
  have hsome : ∀ t ∈ input, (pyIndex st.features.length (t.1 - 1)).isSome := by
    intro t ht
    obtain ⟨h1, h2⟩ := hid t ht
    unfold pyIndex
    rw [if_pos (⟨by omega, by omega⟩ : 0 ≤ t.1 - 1 ∧ t.1 - 1 < (st.features.length : Int))]
    rfl
  obtain ⟨fs, stop, hai⟩ := applyInput_isSome_ok input st.features false hsome
  obtain ⟨hstop, hlen, hgd⟩ := applyInput_ok_spec input st.features false fs stop hai
  refine ⟨_, stop, _, run_model_ok_nonempty hne hci hai, hlen, ?_⟩
  intro j d
  have := hgd j d
  rw [lastWrite_eq_lastValue hid j] at this
  exact this

/-- C1 witness at the spec's own scenario: three sensors, messages for
sensors 1 and 2; positions 0 and 1 take the reported values, position 2
keeps its old value. -/
theorem C1_frame_effect_witness :
    ∃ st' stop outs, run_model (fun _ => false) (initState 3) [lA, lB]
        = .ok (st', stop, outs)
      ∧ st'.features.length = (initState 3).features.length
      ∧ ∀ j d, st'.features.getD j d =
          (lastValue [((1 : Int), PyFloat.finite (mkRat 9 10)),
            ((2 : Int), PyFloat.finite (mkRat 1 10))] ((j : Int) + 1)).getD
            ((initState 3).features.getD j d) :=
  C1_frame_effect (by decide) (by decide) (by decide) (by decide)

/-- C3 counterexample: with three sensors the sentinel line "t,-1,n,0.0" does
update a feature position — index -2 wraps to position 1, which changes from
0.5 to 0.0 — contrary to the claim that no position is updated. -/
theorem C3_cex :
    run_model (fun _ => false) (initState 3) [lNeg] =
      .ok ({ features := [.finite (mkRat 1 2), .finite 0, .finite (mkRat 1 2)]
             interval := 1
             empty_intervals := 0
             events := 1 }, true, [.allClear 1 1])
    ∧ ({ features := [.finite (mkRat 1 2), .finite 0, .finite (mkRat 1 2)]
         interval := 1
         empty_intervals := 0
         events := 1 } : State).features ≠ (initState 3).features := by
  exact ⟨by decide, by decide⟩

/-- C3 amended: a well-formed singleton batch with negative sensor id sets
the termination flag, and — far from leaving the vector alone — writes its
value at the wrapped position (id - 1) + n whenever id - 1 ≥ -n; the
counters advance as in any nonempty interval. -/
theorem C3_negative_id_writes {predict : List PyFloat → Bool} {st : State}
    {l : String} {id : Int} {v : PyFloat} {j : Nat}
    (hl : parseLine l = .pair id v)
    (hneg : id < 0)
    (hj : pyIndex st.features.length (id - 1) = some j) :
    run_model predict st [l] =
      .ok ({ features := st.features.set j v
             interval := st.interval + 1
             empty_intervals := st.empty_intervals
             events := st.events + 1 }, true,
           [if predict (st.features.set j v)
            then Output.attention (st.interval + 1) 1
            else Output.allClear (st.interval + 1) 1]) := by
  have hci : collectInput [l] = .ok [(id, v)] := by
    rw [collectInput_cons, hl]
    rfl
  have hai : applyInput st.features false [(id, v)] = .ok (st.features.set j v, true) := by
    have hd : decide (id < 0) = true := decide_eq_true hneg
    unfold applyInput
    rw [show setFeature st.features (id - 1) v = .ok (st.features.set j v) by
      unfold setFeature; rw [hj]]
    simp only [hd, Bool.false_or]
    rfl
  exact run_model_ok_nonempty (by simp) hci hai

/-- C3 amended witness: the sentinel with three sensors writes position 1
(index -2 wrapped) and sets the termination flag. -/
theorem C3_negative_id_writes_witness :
    run_model (fun _ => false) (initState 3) [lNeg] =
      .ok ({ features := (initState 3).features.set 1 (.finite 0)
             interval := 1
             empty_intervals := 0
             events := 1 }, true,
           [if (fun _ => false) ((initState 3).features.set 1 (PyFloat.finite 0))
            then Output.attention 1 1
            else Output.allClear 1 1]) :=
  @C3_negative_id_writes (fun _ => false) (initState 3) lNeg (-1) (PyFloat.finite 0) 1
    (by decide) (by decide) (by decide)

/-- C4 amended: a line with field count ≠ 4 is silently dropped — removing it
from a batch that stays nonempty leaves the whole result of run_model
(vector, counters, output, termination) unchanged — but a 4-field line whose
id field is not an integer literal or whose value field is not a float
literal aborts the batch with a ValueError instead of being dropped. -/
theorem C4_malformed_lines {predict : List PyFloat → Bool} {st st2 : State}
    {l l2 : String} {ls ls2 : List String}
    (hdrop : parseLine l = .dropped) (hne : ls ≠ [])
    (hfatal : parseLine l2 = .fatal) (hmem : l2 ∈ ls2) :
    run_model predict st (l :: ls) = run_model predict st ls
    ∧ run_model predict st2 ls2 = .error .parseError := by
  refine ⟨run_model_cons_dropped hdrop hne, ?_⟩
  have hci : collectInput ls2 = .error .parseError :=
    (collectInput_error_iff ls2 .parseError).mpr ⟨rfl, l2, hmem, hfatal⟩
  have hne2 : ls2 ≠ [] := by
    intro h
    subst h
    exact absurd hmem (by simp)
  unfold run_model
  rw [if_neg (fun h => hne2 (List.length_eq_zero.mp h)), hci]

/-- C4 witness: the 1-field line "garbage" is dropped with no effect, while
the 4-field line with id field "x" kills the batch. -/
theorem C4_malformed_lines_witness :
    (run_model (fun _ => false) (initState 3) [lGarbage, lA]
      = run_model (fun _ => false) (initState 3) [lA])
    ∧ run_model (fun _ => false) (initState 3) [lBadInt] = .error .parseError :=
  @C4_malformed_lines (fun _ => false) (initState 3) (initState 3) lGarbage lBadInt
    [lA] [lBadInt] (by decide) (by decide) (by decide) (by decide)

/-- C4 counterexample: the 4-field line with non-integer id field "abc" is
not dropped silently; run_model fails fatally on it. -/
theorem C4_cex :
    (splitOnComma lBadAbc.toList).length = 4
    ∧ parseLine lBadAbc = .fatal
    ∧ run_model (fun _ => false) (initState 3) [lBadAbc] = .error .parseError :=
  ⟨by decide, by decide, by decide⟩

/-- C9 amended: a line with field count ≠ 4 never changes a feature position
or the message counter (removing it from a still-nonempty batch leaves the
result unchanged), and whenever run_model completes an interval the message
counter grows by exactly the number of 4-field lines; a batch whose 4-field
lines do not all parse aborts instead, leaving every counter untouched. -/
theorem C9_field_count {predict : List PyFloat → Bool} {st st2 : State}
    {l : String} {ls lines : List String} {st' : State} {stop : Bool}
    {outs : List Output}
    (hdrop : parseLine l = .dropped) (hne : ls ≠ [])
    (h : run_model predict st2 lines = .ok (st', stop, outs)) :
    run_model predict st (l :: ls) = run_model predict st ls
    ∧ st'.events = st2.events + count4 lines := by
  refine ⟨run_model_cons_dropped hdrop hne, ?_⟩
  by_cases hne2 : lines = []
  · subst hne2
    rw [run_model_nil] at h
    injection h with h1
    have h2 := congrArg Prod.fst h1
    simp only at h2
    rw [← h2]
    rfl
  · obtain ⟨input, fs, hci, hai, hst, _⟩ := run_model_ok_inv hne2 h
    subst hst
    show st2.events + input.length = st2.events + count4 lines
    rw [collectInput_length lines input hci]

/-- C9 witness: a dropped line among well-formed ones, and an interval whose
counter grows by exactly its one 4-field line. -/
theorem C9_field_count_witness :
    (run_model (fun _ => false) (initState 3) [lGarbage, lB]
      = run_model (fun _ => false) (initState 3) [lB])
    ∧ ({ features := [.finite (mkRat 9 10), .finite (mkRat 1 2), .finite (mkRat 1 2)]
         interval := 1
         empty_intervals := 0
         events := 1 } : State).events = (initState 3).events + count4 [lA, lGarbage] :=
  @C9_field_count (fun _ => false) (initState 3) (initState 3) lGarbage [lB] [lA, lGarbage]
    ({ features := [.finite (mkRat 9 10), .finite (mkRat 1 2), .finite (mkRat 1 2)]
       interval := 1
       empty_intervals := 0
       events := 1 }) false [.allClear 1 1]
    (by decide) (by decide) (by decide)

/-- C9 counterexample: a batch whose only line has 4 fields but an
unparseable id field aborts run_model with a ValueError, so the message
counter cannot grow by the batch's 4-field line count (here 1). -/
theorem C9_cex :
    count4 [lBadInt] = 1
    ∧ run_model (fun _ => false) (initState 1) [lBadInt] = .error .parseError :=
  ⟨by decide, by decide⟩

/-- C5 amended: the final line prints elapsed = finish - start -
empty_intervals * reporting_interval - 1.5 seconds and the interval counter,
but the printed event total and the throughput numerator are the accumulated
message counter minus one, not the counter itself. -/
theorem C5_summary (st : State) (start_time finish_time reporting_interval : Rat) :
    (summary st start_time finish_time reporting_interval).elapsed
        = finish_time - start_time
          - (st.empty_intervals : Rat) * reporting_interval - 3 / 2
    ∧ (summary st start_time finish_time reporting_interval).events_printed
        = (st.events : Int) - 1
    ∧ (summary st start_time finish_time reporting_interval).intervals = st.interval
    ∧ (summary st start_time finish_time reporting_interval).rate
        = ((st.events : Rat) - 1)
          / (summary st start_time finish_time reporting_interval).elapsed :=
  ⟨rfl, rfl, rfl, rfl⟩

/-- C5 counterexample: with two accumulated events the summary line prints 1,
not the message-counter value 2. -/
theorem C5_cex :
    (summary { features := [], interval := 1, empty_intervals := 0, events := 2 }
      0 10 1).events_printed ≠ (2 : Int) := by decide

/-- C6 amended: a nonempty batch whose parsed messages all write in-range
positions and that contains a negative sensor id completes its interval and
reports stop = true (the stream is stopped after the interval's counter
updates and print); and a batch none of whose well-formed lines carries a
negative id never stops the stream. A sentinel batch with an out-of-range
companion id aborts instead of stopping cleanly (see the counterexample). -/
theorem C6_termination {predict : List PyFloat → Bool} {st : State}
    {lines : List String} :
    (∀ input, collectInput lines = .ok input →
      (∀ t ∈ input, (pyIndex st.features.length (t.1 - 1)).isSome) →
      (∃ t ∈ input, t.1 < 0) →
      ∃ st' outs, run_model predict st lines = .ok (st', true, outs))
    ∧ (∀ st' stop outs, run_model predict st lines = .ok (st', stop, outs) →
        (∀ l ∈ lines, ∀ id v, parseLine l = .pair id v → 0 ≤ id) →
        stop = false) := by
  constructor
  · intro input hci hsome hneg
    have hne : lines ≠ [] := by
      intro hl
      subst hl
      injection hci with h1
      subst h1
      simp at hneg
    obtain ⟨fs, stop, hai⟩ := applyInput_isSome_ok input st.features false hsome
    obtain ⟨hstop, _, _⟩ := applyInput_ok_spec input st.features false fs stop hai
    have hstop_true : stop = true := by
      rw [hstop, Bool.false_or, List.any_eq_true]
      obtain ⟨t, ht, hlt⟩ := hneg
      exact ⟨t, ht, decide_eq_true hlt⟩
    subst hstop_true
    exact ⟨_, _, run_model_ok_nonempty hne hci hai⟩
  · intro st' stop outs h hnoneg
    by_cases hne : lines = []
    · subst hne
      rw [run_model_nil] at h
      injection h with h1
      have h2 := congrArg (fun p => p.2.1) h1
      simpa using h2.symm
    · obtain ⟨input, fs, hci, hai, _, _⟩ := run_model_ok_inv hne h
      obtain ⟨hstop, _, _⟩ := applyInput_ok_spec input st.features false fs stop hai
      rw [hstop, Bool.false_or]
      rw [List.any_eq_false]
      intro t ht
      obtain ⟨l, hl, hpl⟩ := collectInput_mem lines input hci t ht
      have hge := hnoneg l hl t.1 t.2 hpl
      simp only [decide_eq_true_eq]
      omega

/-- C6 witness: the sentinel batch with three sensors stops the stream; the
plain batch for sensor 1 does not. -/
theorem C6_termination_witness :
    (∃ st' outs, run_model (fun _ => false) (initState 3) [lNeg]
      = .ok (st', true, outs))
    ∧ false = false :=
  ⟨(@C6_termination (fun _ => false) (initState 3) [lNeg]).1
      [((-1 : Int), PyFloat.finite 0)] (by decide) (by decide) (by decide),
   (@C6_termination (fun _ => false) (initState 3) [lA]).2
      ({ features := [.finite (mkRat 9 10), .finite (mkRat 1 2), .finite (mkRat 1 2)]
         interval := 1
         empty_intervals := 0
         events := 1 }) false [.allClear 1 1] (by decide)
      (by
        intro l hl id v hp
        simp only [List.mem_singleton] at hl
        subst hl
        rw [show parseLine lA = .pair 1 (.finite (mkRat 9 10)) from by decide] at hp
        injection hp with h1 h2
        omega)⟩

/-- C6 counterexample: a batch holding the sentinel next to the out-of-range
id 17 does not stop the stream after its processing completes — run_model
aborts with an IndexError, and no successful stop = true outcome exists. -/
theorem C6_cex :
    run_model (fun _ => false) (initState 3) [lNeg, lBig] = .error .indexError
    ∧ ¬∃ st' outs, run_model (fun _ => false) (initState 3) [lNeg, lBig]
        = .ok (st', true, outs) := by
  refine ⟨by decide, ?_⟩
  rintro ⟨st', outs, h⟩
  rw [show run_model (fun _ => false) (initState 3) [lNeg, lBig]
    = .error .indexError from by decide] at h
  exact absurd h (by simp)

/-- C7 amended: a feature position i that no parsed message of the run ever
writes — no well-formed line carries sensor id i + 1, nor an id aliasing
position i through Python negative indexing (id i + 1 - n) — holds the
initial value 0.5 after any successfully processed batch sequence started
from the initial state. -/
theorem C7_unreported_keeps_default {predict : List PyFloat → Bool}
    {n : Nat} {batches : List (List String)} {st' : State} {i : Nat}
    (hrun : runStream predict (initState n) batches = .ok st')
    (hno : ∀ b ∈ batches, ∀ l ∈ b, ∀ id v, parseLine l = .pair id v →
      pyIndex n (id - 1) ≠ some i)
    (hi : i < n) :
    ∀ d, st'.features.getD i d = .finite (mkRat 1 2) := by
  intro d
  have hkeep := @runStream_keep predict i d batches (initState n) st' hrun (by
    intro b hb l hl id v hp
    have hlen : (initState n).features.length = n := by simp [initState]
    rw [hlen]
    exact hno b hb l hl id v hp)
  rw [hkeep.2]
  show (List.replicate n (PyFloat.finite (mkRat 1 2))).getD i d = .finite (mkRat 1 2)
  rw [replicate_getD, if_pos hi]

/-- C7 witness: a run of one batch reporting sensor 1 leaves position 2 at
0.5. -/
theorem C7_unreported_keeps_default_witness :
    ({ features := [.finite (mkRat 9 10), .finite (mkRat 1 2), .finite (mkRat 1 2)]
       interval := 1
       empty_intervals := 0
       events := 1 } : State).features.getD 2 PyFloat.nan = .finite (mkRat 1 2) :=
  @C7_unreported_keeps_default (fun _ => false) 3 [[lA]]
    ({ features := [.finite (mkRat 9 10), .finite (mkRat 1 2), .finite (mkRat 1 2)]
       interval := 1
       empty_intervals := 0
       events := 1 }) 2
    (by decide)
    (by
      intro b hb l hl id v hp
      simp only [List.mem_singleton] at hb
      subst hb
      simp only [List.mem_singleton] at hl
      subst hl
      rw [show parseLine lA = .pair 1 (.finite (mkRat 9 10)) from by decide] at hp
      injection hp with h1 h2
      subst h1
      decide)
    (by decide) PyFloat.nan

/-- C7 counterexample: sensor 2 is never reported in the run consisting only
of the sentinel batch, yet its position 1 ends at 0.0, not 0.5, because the
sentinel's index -2 wraps onto it. -/
theorem C7_cex :
    parseLine lNeg = .pair (-1) (.finite 0)
    ∧ ((-1 : Int) = 2) = False
    ∧ runStream (fun _ => false) (initState 3) [[lNeg]]
        = .ok { features := [.finite (mkRat 1 2), .finite 0, .finite (mkRat 1 2)]
                interval := 1
                empty_intervals := 0
                events := 1 }
    ∧ ({ features := [.finite (mkRat 1 2), .finite 0, .finite (mkRat 1 2)]
         interval := 1
         empty_intervals := 0
         events := 1 } : State).features.getD 1 PyFloat.nan ≠ .finite (mkRat 1 2) := by
  refine ⟨by decide, by simp, by decide, by decide⟩

/-- C2 amended: permuting the lines of a batch leaves run_model's whole
result unchanged provided the parsed messages of the batch write pairwise
distinct feature positions; with two messages aimed at the same position the
last write wins and the order matters (see the counterexample). -/
theorem C2_permutation {predict : List PyFloat → Bool} {st : State}
    {lines lines' : List String}
    (hp : lines.Perm lines')
    (hnd : ∀ input, collectInput lines = .ok input →
      (input.map (fun t => pyIndex st.features.length (t.1 - 1))).Nodup) :
    run_model predict st lines = run_model predict st lines' := by
  by_cases hne : lines = []
  · subst hne
    rw [hp.symm.eq_nil]
  · have hne' : lines' ≠ [] := by
      intro h2
      subst h2
      exact hne hp.eq_nil
    cases hci : collectInput lines with
    | error e =>
      obtain ⟨rfl, l, hl, hf⟩ := (collectInput_error_iff lines e).mp hci
      have hci' : collectInput lines' = .error .parseError :=
        (collectInput_error_iff lines' .parseError).mpr ⟨rfl, l, hp.subset hl, hf⟩
      unfold run_model
      rw [if_neg (fun h => hne (List.length_eq_zero.mp h)),
        if_neg (fun h => hne' (List.length_eq_zero.mp h)), hci, hci']
    | ok input =>
      obtain ⟨input', hci', hpi⟩ := collectInput_perm hp input hci
      have hnd1 := hnd input hci
      by_cases hoob : ∃ t ∈ input, pyIndex st.features.length (t.1 - 1) = none
      · have h1 := applyInput_oob input st.features false hoob
        have hoob' : ∃ t ∈ input', pyIndex st.features.length (t.1 - 1) = none := by
          obtain ⟨t, ht, hn⟩ := hoob
          exact ⟨t, hpi.subset ht, hn⟩
        have h2 := applyInput_oob input' st.features false hoob'
        unfold run_model
        rw [if_neg (fun h => hne (List.length_eq_zero.mp h)),
          if_neg (fun h => hne' (List.length_eq_zero.mp h)), hci, hci']
        simp only [h1, h2]
      · push_neg at hoob
        have hsome : ∀ t ∈ input, (pyIndex st.features.length (t.1 - 1)).isSome :=
          fun t ht => Option.isSome_iff_ne_none.mpr (hoob t ht)
        have hsome' : ∀ t ∈ input', (pyIndex st.features.length (t.1 - 1)).isSome :=
          fun t ht => hsome t (hpi.symm.subset ht)
        obtain ⟨fs1, stop1, hai1⟩ := applyInput_isSome_ok input st.features false hsome
        obtain ⟨fs2, stop2, hai2⟩ := applyInput_isSome_ok input' st.features false hsome'
        obtain ⟨hs1, hl1, hg1⟩ := applyInput_ok_spec input st.features false fs1 stop1 hai1
        obtain ⟨hs2, hl2, hg2⟩ := applyInput_ok_spec input' st.features false fs2 stop2 hai2
        have hfs : fs1 = fs2 := by
          apply list_ext_getD PyFloat.nan _ _ (by rw [hl1, hl2])
          intro j
          rw [hg1 j _, hg2 j _, lastWrite_perm hpi hnd1 j]
        have hstop : stop1 = stop2 := by
          rw [hs1, hs2, perm_any_eq hpi]
        have hlen : input.length = input'.length := hpi.length_eq
        rw [run_model_ok_nonempty hne hci hai1, run_model_ok_nonempty hne' hci' hai2,
          hfs, hstop, hlen]

/-- C2 witness: swapping the two well-formed messages for distinct sensors 1
and 2 gives the same result. -/
theorem C2_permutation_witness :
    run_model (fun _ => false) (initState 3) [lA, lB]
      = run_model (fun _ => false) (initState 3) [lB, lA] :=
  @C2_permutation (fun _ => false) (initState 3) [lA, lB] [lB, lA]
    (List.Perm.swap _ _ _)
    (by
      intro input h
      have h2 : collectInput [lA, lB]
          = .ok [((1 : Int), PyFloat.finite (mkRat 9 10)),
                 ((2 : Int), PyFloat.finite (mkRat 1 10))] := by decide
      rw [h2] at h
      injection h with h3
      subst h3
      decide)

/-- C2 counterexample: two messages for the same sensor 1 in one batch make
run_model order-dependent — the last write wins — so a permutation of a
batch can change the resulting feature vector. -/
theorem C2_cex :
    ([lDup1, lDup2] : List String).Perm [lDup2, lDup1]
    ∧ run_model (fun _ => false) (initState 1) [lDup1, lDup2]
      ≠ run_model (fun _ => false) (initState 1) [lDup2, lDup1] :=
  ⟨List.Perm.swap _ _ _, by decide⟩

end IotKafka
